import Mathlib

/-!
Shallow embedding of the CHIP-8 emulator core (`src/lib.rs` of joonoro/chip8)
and verification of its specification claims.

Conventions of the embedding:
* Machine integers (`u8`, `u16`, `usize`) are modelled as `Nat`; truncating
  casts and wrapping operations insert an explicit `% 256` where the source
  truncates to `u8`.
* Rust slice indexing panics when out of bounds, and debug-mode arithmetic
  panics on subtraction underflow; every operation that can panic is modelled
  as an `Option`-returning function, `none` marking the panic.
* Arrays (`memory`, `v_reg`, `display`, `stack`, `keypad`) are modelled as
  total functions `Nat → Nat` together with explicit bound checks at every
  access that the source performs on a fixed-size array.
* The thread-local random generator used by opcode 0xC is modelled by a
  `rand` parameter threaded into the dispatcher: it stands for the byte the
  generator would produce.
-/

/-- PROGRAM_ROM_START: programs start at 0x200. -/
def PROGRAM_ROM_START : Nat := 0x200

/-- FONTSET_START: where the fontset starts. -/
def FONTSET_START : Nat := 0x000

def DISPLAY_WIDTH : Nat := 64

def DISPLAY_HEIGHT : Nat := 32

/-- RGB24 pixel format, each pixel is 3 bytes. -/
def DISPLAY_SIZE : Nat := DISPLAY_HEIGHT * DISPLAY_WIDTH * 3

/-- Size of the machine memory in bytes. -/
def MEMORY_SIZE : Nat := 4096

/-- Opcode field x: `(self & 0x0F00) >> 8`. -/
def op_x (op : Nat) : Nat := (op &&& 0x0F00) >>> 8

/-- Opcode field y: `(self & 0x00F0) >> 4`. -/
def op_y (op : Nat) : Nat := (op &&& 0x00F0) >>> 4

/-- Opcode field n: `self & 0x000F`. -/
def op_n (op : Nat) : Nat := op &&& 0x000F

/-- Opcode field kk: `(self & 0x00FF) as u8`. -/
def op_kk (op : Nat) : Nat := op &&& 0x00FF

/-- Opcode field nnn: `self & 0x0FFF`. -/
def op_nnn (op : Nat) : Nat := op &&& 0x0FFF

/-- The machine state (struct `Chip8` in the source). -/
structure Chip8 where
  opcode : Nat
  memory : Nat → Nat
  v_reg : Nat → Nat
  i_addr : Nat
  pc : Nat
  display : Nat → Nat
  stack : Nat → Nat
  sp : Nat
  delay_timer : Nat
  sound_timer : Nat
  keypad : Nat → Nat

/-- Pointwise update of an array modelled as a function. -/
def upd (f : Nat → Nat) (i v : Nat) : Nat → Nat :=
  fun j => if j = i then v else f j

/-- Get the state of a pixel (On/Off); `none` models the panics
(index out of bounds, or a stored byte that is neither 255 nor 0). -/
def get_pixel (c : Chip8) (pixel_index : Nat) : Option Nat :=
  let triplet_index := pixel_index * 3
  if triplet_index < DISPLAY_SIZE then
    if c.display triplet_index = 255 then some 1
    else if c.display triplet_index = 0 then some 0
    else none
  else none

/-- The pixel byte value for a requested on/off state; `none` models the
panic on a state other than 1 or 0. -/
def pixel_value_of_state (state : Nat) : Option Nat :=
  if state = 1 then some 255
  else if state = 0 then some 0
  else none

/-- Set the state of a pixel (On/Off): writes the same byte to all three
bytes of the pixel triplet. -/
def set_pixel (c : Chip8) (pixel_index state : Nat) : Option Chip8 :=
  let triplet_index := pixel_index * 3
  match pixel_value_of_state state with
  | none => none
  | some pixel_value =>
    if triplet_index + 2 < DISPLAY_SIZE then
      let d1 := upd c.display triplet_index pixel_value
      let d2 := upd d1 (triplet_index + 1) pixel_value
      let d3 := upd d2 (triplet_index + 2) pixel_value
      some { c with display := d3 }
    else none

/-- Set the state of a pixel (On/Off) with XOR: if pixels match turn off,
else turn on. -/
def xor_pixel (c : Chip8) (pixel_index state : Nat) : Option Chip8 :=
  match get_pixel c pixel_index with
  | none => none
  | some p =>
    if p = state then set_pixel c pixel_index 0
    else set_pixel c pixel_index 1

/-- (00E0) Clear the display. -/
def opcode_cls (c : Chip8) : Chip8 :=
  { c with display := fun _ => 0 }

/-- (00EE) Return from a subroutine: `sp -= 1; pc = stack[sp]`.
The decrement underflows when `sp = 0` and the stack read is out of
bounds when the decremented pointer exceeds 15; both are panics. -/
def opcode_ret (c : Chip8) : Option Chip8 :=
  if c.sp = 0 then none
  else if c.sp - 1 < 16 then
    some { c with sp := c.sp - 1, pc := c.stack (c.sp - 1) }
  else none

/-- (1nnn) Jump to location: `pc = nnn - 2` (subtract 2 since PC will be
incremented next); the subtraction underflows when `nnn < 2`. -/
def opcode_jp (c : Chip8) : Option Chip8 :=
  if op_nnn c.opcode < 2 then none
  else some { c with pc := op_nnn c.opcode - 2 }

/-- (2nnn) Call subroutine: `stack[sp] = pc; sp += 1; pc = nnn`; the stack
write is out of bounds when `sp ≥ 16`. -/
def opcode_call (c : Chip8) : Option Chip8 :=
  if c.sp < 16 then
    some { c with stack := upd c.stack c.sp c.pc, sp := c.sp + 1,
                  pc := op_nnn c.opcode }
  else none

/-- (3xkk) Skip next instruction if Vx == kk. -/
def opcode_se_byte (c : Chip8) : Chip8 :=
  if c.v_reg (op_x c.opcode) = op_kk c.opcode then { c with pc := c.pc + 2 }
  else c

/-- (4xkk) Skip next instruction if Vx != kk. -/
def opcode_sne_byte (c : Chip8) : Chip8 :=
  if c.v_reg (op_x c.opcode) ≠ op_kk c.opcode then { c with pc := c.pc + 2 }
  else c

/-- (5xy0) Skip next instruction if Vx == Vy. -/
def opcode_se_vx (c : Chip8) : Chip8 :=
  if c.v_reg (op_x c.opcode) = c.v_reg (op_y c.opcode) then
    { c with pc := c.pc + 2 }
  else c

/-- (6xkk) Set Vx to kk. -/
def opcode_ld_byte (c : Chip8) : Chip8 :=
  { c with v_reg := upd c.v_reg (op_x c.opcode) (op_kk c.opcode) }

/-- (7xkk) Add kk to Vx with `wrapping_add`. -/
def opcode_add_byte (c : Chip8) : Chip8 :=
  let v := (c.v_reg (op_x c.opcode) + op_kk c.opcode) % 256
  { c with v_reg := upd c.v_reg (op_x c.opcode) v }

/-- (8xy0) Set Vx to Vy. -/
def opcode_ld_vy (c : Chip8) : Chip8 :=
  { c with v_reg := upd c.v_reg (op_x c.opcode) (c.v_reg (op_y c.opcode)) }

/-- (8xy1) Bitwise OR. -/
def opcode_or (c : Chip8) : Chip8 :=
  let v := c.v_reg (op_x c.opcode) ||| c.v_reg (op_y c.opcode)
  { c with v_reg := upd c.v_reg (op_x c.opcode) v }

/-- (8xy2) Bitwise AND. -/
def opcode_and (c : Chip8) : Chip8 :=
  let v := c.v_reg (op_x c.opcode) &&& c.v_reg (op_y c.opcode)
  { c with v_reg := upd c.v_reg (op_x c.opcode) v }

/-- (8xy3) Bitwise XOR. -/
def opcode_xor (c : Chip8) : Chip8 :=
  let v := c.v_reg (op_x c.opcode) ^^^ c.v_reg (op_y c.opcode)
  { c with v_reg := upd c.v_reg (op_x c.opcode) v }

/-- (8xy4) Add Vy to Vx, set VF to carry; the flag is written first, then
the truncated sum is stored in Vx. -/
def opcode_add (c : Chip8) : Chip8 :=
  let vx := c.v_reg (op_x c.opcode)
  let vy := c.v_reg (op_y c.opcode)
  let result := vx + vy
  let c1 := if result > 255 then { c with v_reg := upd c.v_reg 0xF 1 }
            else { c with v_reg := upd c.v_reg 0xF 0 }
  { c1 with v_reg := upd c1.v_reg (op_x c.opcode) (result % 256) }

/-- (8xy5) Subtract Vy from Vx, set VF to carry; on borrow the result is
forced to 0. -/
def opcode_sub (c : Chip8) : Chip8 :=
  let vx := c.v_reg (op_x c.opcode)
  let vy := c.v_reg (op_y c.opcode)
  if vx > vy then
    let c1 := { c with v_reg := upd c.v_reg 0xF 1 }
    { c1 with v_reg := upd c1.v_reg (op_x c.opcode) (vx - vy) }
  else
    let c1 := { c with v_reg := upd c.v_reg 0xF 0 }
    { c1 with v_reg := upd c1.v_reg (op_x c.opcode) 0 }

/-- (8xy6) Right shift; VF receives the least-significant bit first, then
the (possibly just-updated) Vx is shifted. -/
def opcode_shr (c : Chip8) : Chip8 :=
  let lsb := c.v_reg (op_x c.opcode) &&& 0x01
  let c1 := { c with v_reg := upd c.v_reg 0xF lsb }
  let v := c1.v_reg (op_x c.opcode) >>> 1
  { c1 with v_reg := upd c1.v_reg (op_x c.opcode) v }

/-- (8xy7) Subtract Vx from Vy, set VF to carry; on borrow the result is
forced to 0. -/
def opcode_subn (c : Chip8) : Chip8 :=
  let vx := c.v_reg (op_x c.opcode)
  let vy := c.v_reg (op_y c.opcode)
  if vy > vx then
    let c1 := { c with v_reg := upd c.v_reg 0xF 1 }
    { c1 with v_reg := upd c1.v_reg (op_x c.opcode) (vy - vx) }
  else
    let c1 := { c with v_reg := upd c.v_reg 0xF 0 }
    { c1 with v_reg := upd c1.v_reg (op_x c.opcode) 0 }

/-- (8xyE) Left shift; VF receives the raw masked high bit `vx & 0x80`
first, then the (possibly just-updated) Vx is shifted left. -/
def opcode_shl (c : Chip8) : Chip8 :=
  let msb := c.v_reg (op_x c.opcode) &&& 0x80
  let c1 := { c with v_reg := upd c.v_reg 0xF msb }
  let v := (c1.v_reg (op_x c.opcode) <<< 1) % 256
  { c1 with v_reg := upd c1.v_reg (op_x c.opcode) v }

/-- (9xy0) Skip next instruction if Vx != Vy. -/
def opcode_sne (c : Chip8) : Chip8 :=
  if c.v_reg (op_x c.opcode) ≠ c.v_reg (op_y c.opcode) then
    { c with pc := c.pc + 2 }
  else c

/-- (Annn) Set address register to NNN; the handler also advances the
program counter by 2 itself. -/
def opcode_ld (c : Chip8) : Chip8 :=
  { c with i_addr := op_nnn c.opcode, pc := c.pc + 2 }

/-- (Bnnn) Jump to NNN + V0. -/
def opcode_jp_v0 (c : Chip8) : Chip8 :=
  { c with pc := op_nnn c.opcode + c.v_reg 0 }

/-- (Cxkk) Generate random byte AND kk, store in Vx; `rand` is the byte
produced by the generator. -/
def opcode_rnd (rand : Nat) (c : Chip8) : Chip8 :=
  { c with v_reg := upd c.v_reg (op_x c.opcode) (rand &&& op_kk c.opcode) }

/-- One sprite bit of the draw loop body: compute the sprite pixel by
masking `sprite_row & (0x80 >> pixel_number)`, compute the unwrapped
target index, check collision at that index (for every bit value),
wrap the index back to the start of the row when the column overflows,
then write with XOR. -/
def drw_pixel (start_px row_number sprite_row pixel_number : Nat)
    (c : Chip8) : Option Chip8 :=
  let sprite_pixel :=
    if sprite_row &&& (0x80 >>> pixel_number) = 0 then 0 else 1
  let target0 := start_px + row_number * DISPLAY_WIDTH + pixel_number
  match get_pixel c target0 with
  | none => none
  | some p =>
    let c1 := if p = 1 then { c with v_reg := upd c.v_reg 0xF 1 } else c
    let target :=
      if DISPLAY_WIDTH ≤ start_px % DISPLAY_WIDTH + pixel_number then
        target0 - DISPLAY_WIDTH
      else target0
    xor_pixel c1 target sprite_pixel

/-- One sprite row of the draw loop: read the sprite byte from memory
(out of bounds is a panic) then run the 8 bit steps left to right. -/
def drw_row (start_px row_number : Nat) (c : Chip8) : Option Chip8 :=
  if c.i_addr + row_number < MEMORY_SIZE then
    let sprite_row := c.memory (c.i_addr + row_number)
    (List.range 8).foldlM
      (fun s pixel_number => drw_pixel start_px row_number sprite_row pixel_number s) c
  else none

/-- (Dxyn) Draw an n-byte sprite at (Vx, Vy) from memory location I:
clear VF, then run the row loop. -/
def opcode_drw (c : Chip8) : Option Chip8 :=
  let x := c.v_reg (op_x c.opcode)
  let y := c.v_reg (op_y c.opcode)
  let n := op_n c.opcode
  let start_px := x + y * DISPLAY_WIDTH
  let c0 := { c with v_reg := upd c.v_reg 0xF 0 }
  (List.range n).foldlM (fun s row_number => drw_row start_px row_number s) c0

/-- (Ex9E) Skip next instruction if key with value Vx pressed
(the source indexes the keypad with the register index x itself). -/
def opcode_skp (c : Chip8) : Chip8 :=
  if c.keypad (op_x c.opcode) = 1 then { c with pc := c.pc + 2 }
  else c

/-- (ExA1) Skip next instruction if key with value Vx not pressed. -/
def opcode_sknp (c : Chip8) : Chip8 :=
  if c.keypad (op_x c.opcode) = 0 then { c with pc := c.pc + 2 }
  else c

/-- (Fx07) Set Vx to DT. -/
def opcode_get_dt (c : Chip8) : Chip8 :=
  { c with v_reg := upd c.v_reg (op_x c.opcode) c.delay_timer }

/-- (Fx0A) Wait for a key press: an empty body in the source. -/
def opcode_waitkey (c : Chip8) : Chip8 := c

/-- (Fx15) Set delay timer to Vx. -/
def opcode_set_dt (c : Chip8) : Chip8 :=
  { c with delay_timer := c.v_reg (op_x c.opcode) }

/-- (Fx18) Set sound timer to Vx. -/
def opcode_set_st (c : Chip8) : Chip8 :=
  { c with sound_timer := c.v_reg (op_x c.opcode) }

/-- (Fx1E) I = I + Vx (no overflow check). -/
def opcode_add_i (c : Chip8) : Chip8 :=
  { c with i_addr := c.i_addr + c.v_reg (op_x c.opcode) }

/-- (Fx29) I = FONTSET_START + Vx * 5; the multiplication is performed on
a `u8`, so it overflows (a panic) when `Vx * 5 > 255`. -/
def opcode_set_sprite (c : Chip8) : Option Chip8 :=
  let vx := c.v_reg (op_x c.opcode)
  if vx * 5 < 256 then some { c with i_addr := FONTSET_START + vx * 5 }
  else none

/-- (Fx33) Store BCD representation of Vx in I, I+1, I+2; memory writes
out of bounds are panics. -/
def opcode_bcd_vx (c : Chip8) : Option Chip8 :=
  let vx := c.v_reg (op_x c.opcode)
  let hundreds := vx / 100
  let tens := (vx - hundreds * 100) / 10
  let ones := vx - hundreds * 100 - tens * 10
  if c.i_addr + 2 < MEMORY_SIZE then
    let m1 := upd c.memory (c.i_addr + 0) hundreds
    let m2 := upd m1 (c.i_addr + 1) tens
    let m3 := upd m2 (c.i_addr + 2) ones
    some { c with memory := m3 }
  else none

/-- (Fx55) Store V0 through Vx in memory at I; memory writes out of
bounds are panics. -/
def opcode_store_vx (c : Chip8) : Option Chip8 :=
  let x := op_x c.opcode
  if c.i_addr + x < MEMORY_SIZE then
    let m := (List.range (x + 1)).foldl
      (fun m i => upd m (c.i_addr + i) (c.v_reg i)) c.memory
    some { c with memory := m }
  else none

/-- (Fx65) Read memory into V0 through Vx from I; memory reads out of
bounds are panics. -/
def opcode_read_vx (c : Chip8) : Option Chip8 :=
  let x := op_x c.opcode
  if c.i_addr + x < MEMORY_SIZE then
    let v := (List.range (x + 1)).foldl
      (fun v i => upd v i (c.memory (c.i_addr + i))) c.v_reg
    some { c with v_reg := v }
  else none

/-- Dispatch on the fetched opcode, mirroring the `match` in
`decode_opcode`; an arm that panics with "unknown opcode" is `none`. -/
def decode_opcode (rand : Nat) (c : Chip8) : Option Chip8 :=
  if c.opcode &&& 0xF000 = 0x0000 then
    if c.opcode &&& 0x00FF = 0x00E0 then some (opcode_cls c)
    else if c.opcode &&& 0x00FF = 0x00EE then opcode_ret c
    else none
  else if c.opcode &&& 0xF000 = 0x1000 then opcode_jp c
  else if c.opcode &&& 0xF000 = 0x2000 then opcode_call c
  else if c.opcode &&& 0xF000 = 0x3000 then some (opcode_se_byte c)
  else if c.opcode &&& 0xF000 = 0x4000 then some (opcode_sne_byte c)
  else if c.opcode &&& 0xF000 = 0x5000 then some (opcode_se_vx c)
  else if c.opcode &&& 0xF000 = 0x6000 then some (opcode_ld_byte c)
  else if c.opcode &&& 0xF000 = 0x7000 then some (opcode_add_byte c)
  else if c.opcode &&& 0xF000 = 0x8000 then
    if c.opcode &&& 0x000F = 0x0000 then some (opcode_ld_vy c)
    else if c.opcode &&& 0x000F = 0x0001 then some (opcode_or c)
    else if c.opcode &&& 0x000F = 0x0002 then some (opcode_and c)
    else if c.opcode &&& 0x000F = 0x0003 then some (opcode_xor c)
    else if c.opcode &&& 0x000F = 0x0004 then some (opcode_add c)
    else if c.opcode &&& 0x000F = 0x0005 then some (opcode_sub c)
    else if c.opcode &&& 0x000F = 0x0006 then some (opcode_shr c)
    else if c.opcode &&& 0x000F = 0x0007 then some (opcode_subn c)
    else if c.opcode &&& 0x000F = 0x000E then some (opcode_shl c)
    else none
  else if c.opcode &&& 0xF000 = 0x9000 then some (opcode_sne c)
  else if c.opcode &&& 0xF000 = 0xA000 then some (opcode_ld c)
  else if c.opcode &&& 0xF000 = 0xB000 then some (opcode_jp_v0 c)
  else if c.opcode &&& 0xF000 = 0xC000 then some (opcode_rnd rand c)
  else if c.opcode &&& 0xF000 = 0xD000 then opcode_drw c
  else if c.opcode &&& 0xF000 = 0xE000 then
    if c.opcode &&& 0xF0FF = 0xE09E then some (opcode_skp c)
    else if c.opcode &&& 0xF0FF = 0xE0A1 then some (opcode_sknp c)
    else none
  else if c.opcode &&& 0xF000 = 0xF000 then
    if c.opcode &&& 0xF0FF = 0xF007 then some (opcode_get_dt c)
    else if c.opcode &&& 0xF0FF = 0xF00A then some (opcode_waitkey c)
    else if c.opcode &&& 0xF0FF = 0xF015 then some (opcode_set_dt c)
    else if c.opcode &&& 0xF0FF = 0xF018 then some (opcode_set_st c)
    else if c.opcode &&& 0xF0FF = 0xF01E then some (opcode_add_i c)
    else if c.opcode &&& 0xF0FF = 0xF029 then opcode_set_sprite c
    else if c.opcode &&& 0xF0FF = 0xF033 then opcode_bcd_vx c
    else if c.opcode &&& 0xF0FF = 0xF055 then opcode_store_vx c
    else if c.opcode &&& 0xF0FF = 0xF065 then opcode_read_vx c
    else none
  else none

/-- Merge the 2-byte instruction at the program counter into the current
opcode; reading either byte out of bounds is a panic. -/
def fetch_opcode (c : Chip8) : Option Chip8 :=
  if c.pc + 1 < MEMORY_SIZE then
    some { c with opcode := (c.memory c.pc) <<< 8 ||| c.memory (c.pc + 1) }
  else none

/-- Decrement each timer that is above zero. -/
def update_timers (c : Chip8) : Chip8 :=
  let c1 := if c.delay_timer > 0 then { c with delay_timer := c.delay_timer - 1 }
            else c
  if c1.sound_timer > 0 then { c1 with sound_timer := c1.sound_timer - 1 }
  else c1

/-- Emulate a CPU cycle: fetch, decode/dispatch, unconditional `pc += 2`,
timer tick. A panic anywhere aborts the cycle. -/
def emulate_cycle (rand : Nat) (c : Chip8) : Option Chip8 :=
  match fetch_opcode c with
  | none => none
  | some c1 =>
    match decode_opcode rand c1 with
    | none => none
    | some c2 => some (update_timers { c2 with pc := c2.pc + 2 })

/-- An instruction word matches a row of the dispatch table of
`decode_opcode`. -/
def isKnownOpcode (op : Nat) : Prop :=
  (op &&& 0xF000 = 0x0000 ∧ (op &&& 0x00FF = 0x00E0 ∨ op &&& 0x00FF = 0x00EE)) ∨
  op &&& 0xF000 = 0x1000 ∨ op &&& 0xF000 = 0x2000 ∨
  op &&& 0xF000 = 0x3000 ∨ op &&& 0xF000 = 0x4000 ∨
  op &&& 0xF000 = 0x5000 ∨ op &&& 0xF000 = 0x6000 ∨
  op &&& 0xF000 = 0x7000 ∨
  (op &&& 0xF000 = 0x8000 ∧
    (op &&& 0x000F = 0x0000 ∨ op &&& 0x000F = 0x0001 ∨
     op &&& 0x000F = 0x0002 ∨ op &&& 0x000F = 0x0003 ∨
     op &&& 0x000F = 0x0004 ∨ op &&& 0x000F = 0x0005 ∨
     op &&& 0x000F = 0x0006 ∨ op &&& 0x000F = 0x0007 ∨
     op &&& 0x000F = 0x000E)) ∨
  op &&& 0xF000 = 0x9000 ∨ op &&& 0xF000 = 0xA000 ∨
  op &&& 0xF000 = 0xB000 ∨ op &&& 0xF000 = 0xC000 ∨
  op &&& 0xF000 = 0xD000 ∨
  (op &&& 0xF000 = 0xE000 ∧
    (op &&& 0xF0FF = 0xE09E ∨ op &&& 0xF0FF = 0xE0A1)) ∨
  (op &&& 0xF000 = 0xF000 ∧
    (op &&& 0xF0FF = 0xF007 ∨ op &&& 0xF0FF = 0xF00A ∨
     op &&& 0xF0FF = 0xF015 ∨ op &&& 0xF0FF = 0xF018 ∨
     op &&& 0xF0FF = 0xF01E ∨ op &&& 0xF0FF = 0xF029 ∨
     op &&& 0xF0FF = 0xF033 ∨ op &&& 0xF0FF = 0xF055 ∨
     op &&& 0xF0FF = 0xF065))

/-- A machine with every field zeroed, used as the base of the concrete
test states below. -/
def zeroMachine : Chip8 where
  opcode := 0
  memory := fun _ => 0
  v_reg := fun _ => 0
  i_addr := 0
  pc := 0
  display := fun _ => 0
  stack := fun _ => 0
  sp := 0
  delay_timer := 0
  sound_timer := 0
  keypad := fun _ => 0

/-- Add with destination register VF: `V[F] = 100`, `V[0] = 100`,
opcode 0x8F04. -/
def addM : Chip8 :=
  { zeroMachine with
    opcode := 0x8F04,
    v_reg := upd (upd zeroMachine.v_reg 0xF 100) 0 100 }

/-- Add with carry: `V[0] = 200`, `V[1] = 100`, opcode 0x8014. -/
def addW : Chip8 :=
  { zeroMachine with
    opcode := 0x8014,
    v_reg := upd (upd zeroMachine.v_reg 0 200) 1 100 }

/-- Subtract with destination register VF: `V[F] = 5`, `V[0] = 2`,
opcode 0x8F05. -/
def subM : Chip8 :=
  { zeroMachine with
    opcode := 0x8F05,
    v_reg := upd (upd zeroMachine.v_reg 0xF 5) 0 2 }

/-- Subtract without borrow: `V[0] = 5`, `V[1] = 2`, opcode 0x8015. -/
def subW : Chip8 :=
  { zeroMachine with
    opcode := 0x8015,
    v_reg := upd (upd zeroMachine.v_reg 0 5) 1 2 }

/-- Subtract with borrow: `V[0] = 2`, `V[1] = 5`, opcode 0x8015. -/
def subW2 : Chip8 :=
  { zeroMachine with
    opcode := 0x8015,
    v_reg := upd (upd zeroMachine.v_reg 0 2) 1 5 }

/-- Left shift with destination register VF: `V[F] = 1`, opcode 0x8F0E. -/
def shlM : Chip8 :=
  { zeroMachine with opcode := 0x8F0E, v_reg := upd zeroMachine.v_reg 0xF 1 }

/-- Left shift with the high bit set: `V[0] = 0x81`, opcode 0x800E. -/
def shlW : Chip8 :=
  { zeroMachine with opcode := 0x800E, v_reg := upd zeroMachine.v_reg 0 0x81 }

/-- A jump to address 0: instruction word 0x1000 stored at pc = 0x200. -/
def jpM : Chip8 :=
  { zeroMachine with
    pc := 0x200,
    memory := upd (upd zeroMachine.memory 0x200 0x10) 0x201 0x00 }

/-- A jump to address 0x666: instruction word 0x1666 at pc = 0x200. -/
def jpW : Chip8 :=
  { zeroMachine with
    pc := 0x200,
    memory := upd (upd zeroMachine.memory 0x200 0x16) 0x201 0x66 }

/-- Set address register to 0x123: instruction word 0xA123 at pc = 0x200. -/
def ldW : Chip8 :=
  { zeroMachine with
    pc := 0x200,
    memory := upd (upd zeroMachine.memory 0x200 0xA1) 0x201 0x23 }

/-- Skip-if-equal with the condition true: word 0x3000 at pc = 0x200 and
`V[0] = 0`. -/
def skW : Chip8 :=
  { zeroMachine with
    pc := 0x200,
    memory := upd (upd zeroMachine.memory 0x200 0x30) 0x201 0x00 }

/-- Skip-if-equal with the condition false: word 0x3007 at pc = 0x200 and
`V[0] = 0`. -/
def skW2 : Chip8 :=
  { zeroMachine with
    pc := 0x200,
    memory := upd (upd zeroMachine.memory 0x200 0x30) 0x201 0x07 }

/-- An unknown instruction word 0x0001 at pc = 0x200. -/
def unkM : Chip8 :=
  { zeroMachine with
    pc := 0x200,
    memory := upd (upd zeroMachine.memory 0x200 0x00) 0x201 0x01 }

/-- Draw state: opcode 0xD011 (draw one all-zero sprite row at (0,0),
taken from `i_addr` = 0x300 where memory holds 0), with the screen pixel
at index 0 switched on. -/
def drwM : Chip8 :=
  { zeroMachine with
    opcode := 0xD011,
    i_addr := 0x300,
    display := upd (upd (upd zeroMachine.display 0 255) 1 255) 2 255 }

/-- Draw state with a zero-height sprite: opcode 0xD000. -/
def drwW0 : Chip8 :=
  { zeroMachine with opcode := 0xD000, v_reg := upd zeroMachine.v_reg 0xF 1 }

/-- Pixel-write state: the display is all off. -/
def pixM : Chip8 := zeroMachine

/-- Stack state with one frame: `sp = 1`, `stack[0] = 0x300`, pc = 0x123,
opcode 0x2400 (a call to 0x400). -/
def stkM : Chip8 :=
  { zeroMachine with
    opcode := 0x2400,
    pc := 0x123,
    sp := 1,
    stack := upd zeroMachine.stack 0 0x300 }

/-- Stack state with an empty stack: `sp = 0`. -/
def stkZ : Chip8 := { zeroMachine with opcode := 0x2400, sp := 0 }

/-- Stack state with a full stack: `sp = 16`. -/
def stkF : Chip8 := { zeroMachine with opcode := 0x2400, sp := 16 }

/-! Basic lemmas about the embedding. -/

theorem upd_same (f : Nat → Nat) (i v : Nat) : upd f i v i = v := by
  simp [upd]

theorem upd_other (f : Nat → Nat) (i v j : Nat) (h : j ≠ i) :
    upd f i v j = f j := by
  simp [upd, h]

/-- Bitwise or of disjoint parts is addition. -/
theorem lor_eq_add (k a b : Nat) (hb : b < 2 ^ k) :
    a * 2 ^ k ||| b = a * 2 ^ k + b := by
  induction k generalizing a b with
  | zero =>
    have h1 : (2:Nat) ^ 0 = 1 := by norm_num
    have hb0 : b = 0 := by omega
    subst hb0
    simp
  | succ k ih =>
    have h2 : a * 2 ^ (k + 1) = 2 * (a * 2 ^ k) := by ring
    have hp : (2:Nat) ^ (k + 1) = 2 * 2 ^ k := by ring
    have hb2 : b / 2 < 2 ^ k := by omega
    have hdiv2 : a * 2 ^ (k + 1) / 2 = a * 2 ^ k := by omega
    have hdiv : (a * 2 ^ (k + 1) ||| b) / 2 = a * 2 ^ k ||| b / 2 := by
      rw [Nat.or_div_two, hdiv2]
    have ihx := ih a (b / 2) hb2
    have hstep := Nat.div_add_mod (a * 2 ^ (k + 1) ||| b) 2
    have ho := @Nat.or_mod_two_eq_one (a * 2 ^ (k + 1)) b
    omega

/-- Merging the two fetched bytes of a word reproduces the word. -/
theorem byte_merge (w : Nat) : (w / 256) <<< 8 ||| w % 256 = w := by
  have h8 : (2:Nat) ^ 8 = 256 := by norm_num
  have hlt : w % 256 < 2 ^ 8 := by omega
  rw [Nat.shiftLeft_eq, lor_eq_add 8 (w / 256) (w % 256) hlt]
  omega

/-- Masking with a contiguous window of bits extracts a div-mod window. -/
theorem and_mask_window (w k n : Nat) :
    w &&& (2 ^ n - 1) <<< k = w / 2 ^ k % 2 ^ n * 2 ^ k := by
  have hshape : w / 2 ^ k % 2 ^ n * 2 ^ k = (w >>> k % 2 ^ n) <<< k := by
    rw [Nat.shiftLeft_eq, Nat.shiftRight_eq_div_pow]
  rw [hshape]
  apply Nat.eq_of_testBit_eq
  intro i
  simp only [Nat.testBit_and, Nat.testBit_shiftLeft, Nat.testBit_two_pow_sub_one,
    Nat.testBit_mod_two_pow, Nat.testBit_shiftRight]
  by_cases hik : k ≤ i
  · have hki : k + (i - k) = i := by omega
    rw [hki]
    have hge : (decide (i ≥ k)) = true := by simpa using hik
    cases h1 : Nat.testBit w i <;> cases h2 : decide (i - k < n) <;>
      simp [hge, h1, h2]
  · have hge : (decide (i ≥ k)) = false := by simpa using hik
    simp [hge]

theorem op_x_eq (op : Nat) : op_x op = op / 256 % 16 := by
  have h : (0x0F00 : Nat) = (2 ^ 4 - 1) <<< 8 := by decide
  rw [op_x, h, and_mask_window, Nat.shiftRight_eq_div_pow]
  norm_num

theorem op_y_eq (op : Nat) : op_y op = op / 16 % 16 := by
  have h : (0x00F0 : Nat) = (2 ^ 4 - 1) <<< 4 := by decide
  rw [op_y, h, and_mask_window, Nat.shiftRight_eq_div_pow]
  norm_num

theorem op_n_eq (op : Nat) : op_n op = op % 16 := by
  have h : (0x000F : Nat) = 2 ^ 4 - 1 := by decide
  rw [op_n, h, Nat.and_pow_two_sub_one_eq_mod]

theorem op_kk_eq (op : Nat) : op_kk op = op % 256 := by
  have h : (0x00FF : Nat) = 2 ^ 8 - 1 := by decide
  rw [op_kk, h, Nat.and_pow_two_sub_one_eq_mod]

theorem op_nnn_eq (op : Nat) : op_nnn op = op % 4096 := by
  have h : (0x0FFF : Nat) = 2 ^ 12 - 1 := by decide
  rw [op_nnn, h, Nat.and_pow_two_sub_one_eq_mod]

theorem and_F000_eq (op : Nat) : op &&& 0xF000 = op / 4096 % 16 * 4096 := by
  have h : (0xF000 : Nat) = (2 ^ 4 - 1) <<< 12 := by decide
  rw [h, and_mask_window]
  norm_num

theorem update_timers_pc (c : Chip8) : (update_timers c).pc = c.pc := by
  simp only [update_timers]
  split_ifs <;> rfl

theorem update_timers_i_addr (c : Chip8) :
    (update_timers c).i_addr = c.i_addr := by
  simp only [update_timers]
  split_ifs <;> rfl

theorem DISPLAY_SIZE_eq : DISPLAY_SIZE = 6144 := by
  norm_num [DISPLAY_SIZE, DISPLAY_WIDTH, DISPLAY_HEIGHT]

theorem and_F000_of_and_F0FF {w v : Nat} (h : w &&& 0xF0FF = v) :
    w &&& 0xF000 = v &&& 0xF000 := by
  rw [← h, Nat.and_assoc]
  have h0 : (0xF0FF : Nat) &&& 0xF000 = 0xF000 := by decide
  rw [h0]

theorem and_F000_of_and_F00F {w v : Nat} (h : w &&& 0xF00F = v) :
    w &&& 0xF000 = v &&& 0xF000 := by
  rw [← h, Nat.and_assoc]
  have h0 : (0xF00F : Nat) &&& 0xF000 = 0xF000 := by decide
  rw [h0]

/-- A successful fetch characterized through the instruction word found at
the program counter. -/
theorem fetch_opcode_eq (c : Chip8) (w : Nat)
    (hpc : c.pc + 1 < MEMORY_SIZE)
    (hb1 : c.memory c.pc = w / 256) (hb2 : c.memory (c.pc + 1) = w % 256) :
    fetch_opcode c = some { c with opcode := w } := by
  unfold fetch_opcode
  rw [if_pos hpc, hb1, hb2, byte_merge]

theorem decode_kind_jp (rand : Nat) (c : Chip8)
    (h : c.opcode &&& 0xF000 = 0x1000) :
    decode_opcode rand c = opcode_jp c := by
  unfold decode_opcode
  rw [h]
  norm_num

theorem decode_kind_ld (rand : Nat) (c : Chip8)
    (h : c.opcode &&& 0xF000 = 0xA000) :
    decode_opcode rand c = some (opcode_ld c) := by
  unfold decode_opcode
  rw [h]
  norm_num

theorem decode_kind_se_byte (rand : Nat) (c : Chip8)
    (h : c.opcode &&& 0xF000 = 0x3000) :
    decode_opcode rand c = some (opcode_se_byte c) := by
  unfold decode_opcode
  rw [h]
  norm_num

theorem decode_kind_sne_byte (rand : Nat) (c : Chip8)
    (h : c.opcode &&& 0xF000 = 0x4000) :
    decode_opcode rand c = some (opcode_sne_byte c) := by
  unfold decode_opcode
  rw [h]
  norm_num

theorem decode_kind_se_vx (rand : Nat) (c : Chip8)
    (h : c.opcode &&& 0xF000 = 0x5000) :
    decode_opcode rand c = some (opcode_se_vx c) := by
  unfold decode_opcode
  rw [h]
  norm_num

theorem decode_kind_sne (rand : Nat) (c : Chip8)
    (h : c.opcode &&& 0xF000 = 0x9000) :
    decode_opcode rand c = some (opcode_sne c) := by
  unfold decode_opcode
  rw [h]
  norm_num

theorem decode_kind_skp (rand : Nat) (c : Chip8)
    (h : c.opcode &&& 0xF0FF = 0xE09E) :
    decode_opcode rand c = some (opcode_skp c) := by
  have h1 : c.opcode &&& 0xF000 = 0xE000 := by
    rw [and_F000_of_and_F0FF h]
    decide
  unfold decode_opcode
  rw [h1, h]
  norm_num

theorem decode_kind_sknp (rand : Nat) (c : Chip8)
    (h : c.opcode &&& 0xF0FF = 0xE0A1) :
    decode_opcode rand c = some (opcode_sknp c) := by
  have h1 : c.opcode &&& 0xF000 = 0xE000 := by
    rw [and_F000_of_and_F0FF h]
    decide
  unfold decode_opcode
  rw [h1, h]
  norm_num

/-- A successful pixel read shows the index is in range and the first byte
of the triplet is one of the two legal encodings. -/
theorem get_pixel_some (c : Chip8) (i p : Nat) (h : get_pixel c i = some p) :
    i * 3 < DISPLAY_SIZE ∧
      ((p = 1 ∧ c.display (i * 3) = 255) ∨ (p = 0 ∧ c.display (i * 3) = 0)) := by
  unfold get_pixel at h
  by_cases h1 : i * 3 < DISPLAY_SIZE
  · rw [if_pos h1] at h
    by_cases h2 : c.display (i * 3) = 255
    · rw [if_pos h2] at h
      refine ⟨h1, Or.inl ⟨?_, h2⟩⟩
      exact (Option.some_injective _ h).symm
    · rw [if_neg h2] at h
      by_cases h3 : c.display (i * 3) = 0
      · rw [if_pos h3] at h
        refine ⟨h1, Or.inr ⟨?_, h3⟩⟩
        exact (Option.some_injective _ h).symm
      · rw [if_neg h3] at h
        cases h
  · rw [if_neg h1] at h
    cases h

/-- Reading a pixel only looks at the first byte of its triplet. -/
theorem get_pixel_congr (c c' : Chip8) (i : Nat)
    (h : c'.display (i * 3) = c.display (i * 3)) :
    get_pixel c' i = get_pixel c i := by
  simp only [get_pixel]
  rw [h]

/-- A pixel write with a legal state argument and an in-range index
succeeds and produces the triple byte update. -/
theorem set_pixel_some (c : Chip8) (i st : Nat) (hst : st = 0 ∨ st = 1)
    (h3 : i * 3 + 2 < DISPLAY_SIZE) :
    set_pixel c i st = some { c with display := upd (upd (upd c.display (i * 3) (if st = 1 then 255 else 0)) (i * 3 + 1) (if st = 1 then 255 else 0)) (i * 3 + 2) (if st = 1 then 255 else 0) } := by
  rcases hst with h | h <;> subst h <;>
    simp [set_pixel, pixel_value_of_state, h3]

/-- C10: the subroutine opcodes have unguarded stack bounds: the return
handler is well-defined for `sp` in [1,16], decrementing `sp` and loading
`pc` from `stack[sp-1]`, and is undefined (underflow) for `sp = 0`; the
call handler writes `stack[sp]`, increments `sp` and jumps, and is
well-defined exactly when `sp < 16`. -/
theorem stack_bounds_spec (c : Chip8) :
    (1 ≤ c.sp → c.sp ≤ 16 →
      ∃ c', opcode_ret c = some c' ∧ c'.sp = c.sp - 1 ∧
        c'.pc = c.stack (c.sp - 1)) ∧
    (c.sp = 0 → opcode_ret c = none) ∧
    (c.sp < 16 →
      ∃ c', opcode_call c = some c' ∧ c'.stack c.sp = c.pc ∧
        c'.sp = c.sp + 1 ∧ c'.pc = op_nnn c.opcode ∧
        ∀ j, j ≠ c.sp → c'.stack j = c.stack j) ∧
    (16 ≤ c.sp → opcode_call c = none) := by
  refine ⟨?_, ?_, ?_, ?_⟩
  · intro h1 h16
    have he : opcode_ret c =
        some { c with sp := c.sp - 1, pc := c.stack (c.sp - 1) } := by
      unfold opcode_ret
      rw [if_neg (by omega), if_pos (by omega)]
    exact ⟨_, he, rfl, rfl⟩
  · intro h0
    unfold opcode_ret
    rw [if_pos h0]
  · intro h
    have he : opcode_call c =
        some { c with stack := upd c.stack c.sp c.pc, sp := c.sp + 1,
                      pc := op_nnn c.opcode } := by
      unfold opcode_call
      rw [if_pos h]
    exact ⟨_, he, upd_same _ _ _, rfl, rfl,
      fun j hj => upd_other _ _ _ _ hj⟩
  · intro h
    unfold opcode_call
    rw [if_neg (by omega)]

/-- C10 witness: the four cases of `stack_bounds_spec` exercised on
concrete stack states. -/
theorem stack_bounds_witness :
    (∃ c', opcode_ret stkM = some c' ∧ c'.sp = stkM.sp - 1 ∧
      c'.pc = stkM.stack (stkM.sp - 1)) ∧
    opcode_ret stkZ = none ∧
    (∃ c', opcode_call stkM = some c' ∧ c'.stack stkM.sp = stkM.pc ∧
      c'.sp = stkM.sp + 1 ∧ c'.pc = op_nnn stkM.opcode ∧
      ∀ j, j ≠ stkM.sp → c'.stack j = stkM.stack j) ∧
    opcode_call stkF = none :=
  ⟨(stack_bounds_spec stkM).1 (by decide) (by decide),
   (stack_bounds_spec stkZ).2.1 (by decide),
   (stack_bounds_spec stkM).2.2.1 (by decide),
   (stack_bounds_spec stkF).2.2.2 (by decide)⟩

/-- C2 (amended): for the add opcode the source writes the carry flag
before the result, so the stated behavior holds whenever the destination
register index x is not 0xF; at x = 0xF the result write overwrites the
flag (see the counterexample). -/
theorem opcode_add_spec (c : Chip8) (hx : op_x c.opcode ≠ 0xF)
    (hvx : c.v_reg (op_x c.opcode) ≤ 255)
    (hvy : c.v_reg (op_y c.opcode) ≤ 255) :
    (opcode_add c).v_reg (op_x c.opcode) =
      (c.v_reg (op_x c.opcode) + c.v_reg (op_y c.opcode)) % 256 ∧
    (opcode_add c).v_reg 0xF =
      (if 255 < c.v_reg (op_x c.opcode) + c.v_reg (op_y c.opcode)
       then 1 else 0) := by
  have hfx : (0xF : Nat) ≠ op_x c.opcode := Ne.symm hx
  simp only [opcode_add]
  by_cases hgt : 255 < c.v_reg (op_x c.opcode) + c.v_reg (op_y c.opcode)
  · rw [if_pos (by omega), if_pos hgt]
    exact ⟨upd_same _ _ _, by simp [upd, hfx]⟩
  · rw [if_neg (by omega), if_neg hgt]
    exact ⟨upd_same _ _ _, by simp [upd, hfx]⟩

/-- C2 counterexample: with destination register VF (opcode 0x8F04,
`V[F] = V[0] = 100`) the sum is 200 ≤ 255, so the claim requires VF = 0,
but the result write leaves VF = 200. -/
theorem opcode_add_counterexample :
    addM.v_reg (op_x addM.opcode) + addM.v_reg (op_y addM.opcode) ≤ 255 ∧
    (opcode_add addM).v_reg 0xF = 200 ∧ (opcode_add addM).v_reg 0xF ≠ 0 := by
  decide

/-- C2 witness: `opcode_add_spec` on `V[0] = 200`, `V[1] = 100`. -/
theorem opcode_add_witness :
    (opcode_add addW).v_reg (op_x addW.opcode) =
      (addW.v_reg (op_x addW.opcode) + addW.v_reg (op_y addW.opcode)) % 256 ∧
    (opcode_add addW).v_reg 0xF =
      (if 255 < addW.v_reg (op_x addW.opcode) + addW.v_reg (op_y addW.opcode)
       then 1 else 0) :=
  opcode_add_spec addW (by decide) (by decide) (by decide)

/-- C3 (amended): for the subtract opcode the source writes the borrow
flag before the result, so the stated behavior holds whenever the
destination register index x is not 0xF; at x = 0xF the result write
overwrites the flag (see the counterexample). -/
theorem opcode_sub_spec (c : Chip8) (hx : op_x c.opcode ≠ 0xF) :
    (c.v_reg (op_y c.opcode) < c.v_reg (op_x c.opcode) →
      (opcode_sub c).v_reg 0xF = 1 ∧
      (opcode_sub c).v_reg (op_x c.opcode) =
        c.v_reg (op_x c.opcode) - c.v_reg (op_y c.opcode)) ∧
    (c.v_reg (op_x c.opcode) ≤ c.v_reg (op_y c.opcode) →
      (opcode_sub c).v_reg 0xF = 0 ∧
      (opcode_sub c).v_reg (op_x c.opcode) = 0) := by
  have hfx : (0xF : Nat) ≠ op_x c.opcode := Ne.symm hx
  simp only [opcode_sub]
  constructor
  · intro hlt
    rw [if_pos (by omega)]
    exact ⟨by simp [upd, hfx], upd_same _ _ _⟩
  · intro hle
    rw [if_neg (by omega)]
    exact ⟨by simp [upd, hfx], upd_same _ _ _⟩

/-- C3 counterexample: with destination register VF (opcode 0x8F05,
`V[F] = 5 > V[0] = 2`) the claim requires VF = 1, but the result write
leaves VF = 3. -/
theorem opcode_sub_counterexample :
    subM.v_reg (op_y subM.opcode) < subM.v_reg (op_x subM.opcode) ∧
    (opcode_sub subM).v_reg 0xF = 3 ∧ (opcode_sub subM).v_reg 0xF ≠ 1 := by
  decide

/-- C3 witness: `opcode_sub_spec` on `V[0] = 5, V[1] = 2` (no borrow) and
on `V[0] = 2, V[1] = 5` (borrow). -/
theorem opcode_sub_witness :
    ((opcode_sub subW).v_reg 0xF = 1 ∧
      (opcode_sub subW).v_reg (op_x subW.opcode) =
        subW.v_reg (op_x subW.opcode) - subW.v_reg (op_y subW.opcode)) ∧
    ((opcode_sub subW2).v_reg 0xF = 0 ∧
      (opcode_sub subW2).v_reg (op_x subW2.opcode) = 0) :=
  ⟨(opcode_sub_spec subW (by decide)).1 (by decide),
   (opcode_sub_spec subW2 (by decide)).2 (by decide)⟩

/-- C6 (amended): for the left-shift opcode the source writes the raw
masked high bit `Vx & 0x80` into VF before shifting, so the stated
behavior holds whenever the destination register index x is not 0xF; at
x = 0xF the shift is applied to the just-written flag value, leaving 0
(see the counterexample). -/
theorem opcode_shl_spec (c : Chip8) (hx : op_x c.opcode ≠ 0xF)
    (hvx : c.v_reg (op_x c.opcode) ≤ 255) :
    (opcode_shl c).v_reg 0xF = c.v_reg (op_x c.opcode) &&& 0x80 ∧
    (opcode_shl c).v_reg (op_x c.opcode) =
      (c.v_reg (op_x c.opcode) <<< 1) % 256 := by
  have hfx : (0xF : Nat) ≠ op_x c.opcode := Ne.symm hx
  simp only [opcode_shl]
  constructor
  · rw [upd_other _ _ _ _ hfx, upd_same]
  · rw [upd_same, upd_other _ _ _ _ hx]

/-- C6 counterexample: with destination register VF (opcode 0x8F0E,
`V[F] = 1`) the claim requires the result register to become
`(1 << 1) mod 256 = 2`, but the flag write happens first and the shift is
applied to the flag value, leaving 0. -/
theorem opcode_shl_counterexample :
    (shlM.v_reg (op_x shlM.opcode) <<< 1) % 256 = 2 ∧
    (opcode_shl shlM).v_reg (op_x shlM.opcode) = 0 ∧
    (opcode_shl shlM).v_reg (op_x shlM.opcode) ≠
      (shlM.v_reg (op_x shlM.opcode) <<< 1) % 256 := by
  decide

/-- C6 witness: `opcode_shl_spec` on `V[0] = 0x81` (high bit set). -/
theorem opcode_shl_witness :
    (opcode_shl shlW).v_reg 0xF = shlW.v_reg (op_x shlW.opcode) &&& 0x80 ∧
    (opcode_shl shlW).v_reg (op_x shlW.opcode) =
      (shlW.v_reg (op_x shlW.opcode) <<< 1) % 256 :=
  opcode_shl_spec shlW (by decide) (by decide)

/-- C9: a pixel write with state 0 or 1 writes the same byte value (0 or
255) to all three bytes of the pixel, leaves every other byte untouched
(preserving the equal-bytes invariant), and reads back as the written
state; `xor_pixel` writes through `set_pixel` and so also produces three
equal bytes; `get_pixel` returns 1 exactly on a stored 255 byte and 0
exactly on a stored 0 byte. -/
theorem pixel_invariant_spec (c : Chip8) (i st : Nat)
    (hi : i < DISPLAY_WIDTH * DISPLAY_HEIGHT) (hst : st = 0 ∨ st = 1) :
    ∃ c', set_pixel c i st = some c' ∧
      c'.display (i * 3) = (if st = 1 then 255 else 0) ∧
      c'.display (i * 3 + 1) = (if st = 1 then 255 else 0) ∧
      c'.display (i * 3 + 2) = (if st = 1 then 255 else 0) ∧
      (∀ j, j ≠ i * 3 → j ≠ i * 3 + 1 → j ≠ i * 3 + 2 →
        c'.display j = c.display j) ∧
      get_pixel c' i = some st ∧
      (∀ b c2, xor_pixel c i b = some c2 →
        c2.display (i * 3) = c2.display (i * 3 + 1) ∧
        c2.display (i * 3 + 1) = c2.display (i * 3 + 2)) ∧
      (∀ p, get_pixel c i = some p →
        (p = 1 ∧ c.display (i * 3) = 255) ∨
        (p = 0 ∧ c.display (i * 3) = 0)) := by
  have hw : DISPLAY_WIDTH * DISPLAY_HEIGHT = 2048 := by
    norm_num [DISPLAY_WIDTH, DISPLAY_HEIGHT]
  have h3 : i * 3 + 2 < DISPLAY_SIZE := by
    rw [DISPLAY_SIZE_eq]
    omega
  have hda : ∀ v, upd (upd (upd c.display (i * 3) v) (i * 3 + 1) v)
      (i * 3 + 2) v (i * 3) = v := fun v => by
    rw [upd_other _ _ _ _ (by omega), upd_other _ _ _ _ (by omega), upd_same]
  have hdb : ∀ v, upd (upd (upd c.display (i * 3) v) (i * 3 + 1) v)
      (i * 3 + 2) v (i * 3 + 1) = v := fun v => by
    rw [upd_other _ _ _ _ (by omega), upd_same]
  have hdc : ∀ v, upd (upd (upd c.display (i * 3) v) (i * 3 + 1) v)
      (i * 3 + 2) v (i * 3 + 2) = v := fun v => by
    rw [upd_same]
  have he := set_pixel_some c i st hst h3
  refine ⟨_, he, hda _, hdb _, hdc _, ?_, ?_, ?_, ?_⟩
  · intro j h1 h2 h3'
    dsimp only
    rw [upd_other _ _ _ _ h3', upd_other _ _ _ _ h2, upd_other _ _ _ _ h1]
  · simp only [get_pixel]
    rw [if_pos (by omega : i * 3 < DISPLAY_SIZE)]
    dsimp only
    rw [hda]
    rcases hst with h | h <;> subst h <;> norm_num
  · intro b c2 hx
    unfold xor_pixel at hx
    cases hg : get_pixel c i with
    | none =>
      rw [hg] at hx
      simp at hx
    | some p =>
      rw [hg] at hx
      dsimp only at hx
      by_cases hpb : p = b
      · rw [if_pos hpb, set_pixel_some c i 0 (Or.inl rfl) h3] at hx
        have hc2 : c2 = { c with display := upd (upd (upd c.display (i * 3) (if (0:Nat) = 1 then 255 else 0)) (i * 3 + 1) (if (0:Nat) = 1 then 255 else 0)) (i * 3 + 2) (if (0:Nat) = 1 then 255 else 0) } := by
          injection hx with hx2
          exact hx2.symm
        subst hc2
        dsimp only
        rw [hda, hdb, hdc]
        exact ⟨rfl, rfl⟩
      · rw [if_neg hpb, set_pixel_some c i 1 (Or.inr rfl) h3] at hx
        have hc2 : c2 = { c with display := upd (upd (upd c.display (i * 3) (if (1:Nat) = 1 then 255 else 0)) (i * 3 + 1) (if (1:Nat) = 1 then 255 else 0)) (i * 3 + 2) (if (1:Nat) = 1 then 255 else 0) } := by
          injection hx with hx2
          exact hx2.symm
        subst hc2
        dsimp only
        rw [hda, hdb, hdc]
        exact ⟨rfl, rfl⟩
  · intro p hp
    exact (get_pixel_some c i p hp).2

/-- C9 witness: `pixel_invariant_spec` at pixel index 5, state 1, on the
all-off display. -/
theorem pixel_invariant_witness :
    ∃ c', set_pixel pixM 5 1 = some c' ∧
      c'.display (5 * 3) = (if (1:Nat) = 1 then 255 else 0) ∧
      c'.display (5 * 3 + 1) = (if (1:Nat) = 1 then 255 else 0) ∧
      c'.display (5 * 3 + 2) = (if (1:Nat) = 1 then 255 else 0) ∧
      (∀ j, j ≠ 5 * 3 → j ≠ 5 * 3 + 1 → j ≠ 5 * 3 + 2 →
        c'.display j = pixM.display j) ∧
      get_pixel c' 5 = some 1 ∧
      (∀ b c2, xor_pixel pixM 5 b = some c2 →
        c2.display (5 * 3) = c2.display (5 * 3 + 1) ∧
        c2.display (5 * 3 + 1) = c2.display (5 * 3 + 2)) ∧
      (∀ p, get_pixel pixM 5 = some p →
        (p = 1 ∧ pixM.display (5 * 3) = 255) ∨
        (p = 0 ∧ pixM.display (5 * 3) = 0)) :=
  pixel_invariant_spec pixM 5 1 (by decide) (Or.inr rfl)

/-- A cycle whose fetch succeeds proceeds to dispatch, the unconditional
advance, and the timer tick. -/
theorem emulate_cycle_eq (rand : Nat) (c c1 : Chip8)
    (hf : fetch_opcode c = some c1) :
    emulate_cycle rand c =
      match decode_opcode rand c1 with
      | none => none
      | some c2 => some (update_timers { c2 with pc := c2.pc + 2 }) := by
  unfold emulate_cycle
  rw [hf]

/-- C4 (amended): for a jump instruction 0x1nnn with `nnn ≥ 2`, a full
step lands the program counter exactly on `nnn` (the handler subtracts 2
to compensate the driver's +2); for `nnn < 2` the handler's subtraction
underflows and the step faults (see the counterexample). -/
theorem opcode_jp_cycle_spec (rand : Nat) (c : Chip8) (nnn : Nat)
    (h1 : nnn < 4096) (h2 : 2 ≤ nnn) (hpc : c.pc + 1 < MEMORY_SIZE)
    (hb1 : c.memory c.pc = (0x1000 + nnn) / 256)
    (hb2 : c.memory (c.pc + 1) = (0x1000 + nnn) % 256) :
    ∃ c', emulate_cycle rand c = some c' ∧ c'.pc = nnn := by
  have hf := fetch_opcode_eq c (0x1000 + nnn) hpc hb1 hb2
  have hmask : ({ c with opcode := 0x1000 + nnn } : Chip8).opcode &&& 0xF000
      = 0x1000 := by
    show (0x1000 + nnn) &&& 0xF000 = 0x1000
    rw [and_F000_eq]
    have hd4 : (0x1000 + nnn) / 4096 = 1 := by omega
    rw [hd4]
  have hnn : op_nnn (0x1000 + nnn) = nnn := by
    rw [op_nnn_eq]
    omega
  have hd := decode_kind_jp rand _ hmask
  have hjp : opcode_jp ({ c with opcode := 0x1000 + nnn } : Chip8) =
      some { c with opcode := 0x1000 + nnn,
                    pc := op_nnn (0x1000 + nnn) - 2 } := by
    unfold opcode_jp
    dsimp only
    rw [hnn, if_neg (by omega)]
  have hrun : emulate_cycle rand c =
      some (update_timers { c with opcode := 0x1000 + nnn,
                                   pc := op_nnn (0x1000 + nnn) - 2 + 2 }) := by
    rw [emulate_cycle_eq rand c _ hf, hd, hjp]
  refine ⟨_, hrun, ?_⟩
  rw [update_timers_pc]
  dsimp only
  rw [hnn]
  omega

/-- C4 counterexample: the jump word 0x1000 (nnn = 0) makes the handler's
`nnn - 2` underflow, so the step faults instead of landing on 0. -/
theorem opcode_jp_cycle_counterexample :
    jpM.memory jpM.pc = 0x10 ∧ jpM.memory (jpM.pc + 1) = 0x00 ∧
    (emulate_cycle 0 jpM).isNone = true := by
  decide

/-- C4 witness: `opcode_jp_cycle_spec` on the word 0x1666 at pc 0x200. -/
theorem opcode_jp_cycle_witness :
    ∃ c', emulate_cycle 0 jpW = some c' ∧ c'.pc = 0x666 :=
  opcode_jp_cycle_spec 0 jpW 0x666 (by decide) (by decide) (by decide)
    (by decide) (by decide)

/-- C5: for the set-address-register word 0xAnnn, one full step sets I to
`nnn` and advances the program counter by 4 in total: the handler adds 2
itself and the cycle driver adds 2 again. -/
theorem opcode_ld_cycle_spec (rand : Nat) (c : Chip8) (nnn : Nat)
    (h1 : nnn < 4096) (hpc : c.pc + 1 < MEMORY_SIZE)
    (hb1 : c.memory c.pc = (0xA000 + nnn) / 256)
    (hb2 : c.memory (c.pc + 1) = (0xA000 + nnn) % 256) :
    ∃ c', emulate_cycle rand c = some c' ∧ c'.i_addr = nnn ∧
      c'.pc = c.pc + 4 := by
  have hf := fetch_opcode_eq c (0xA000 + nnn) hpc hb1 hb2
  have hmask : ({ c with opcode := 0xA000 + nnn } : Chip8).opcode &&& 0xF000
      = 0xA000 := by
    show (0xA000 + nnn) &&& 0xF000 = 0xA000
    rw [and_F000_eq]
    have hd4 : (0xA000 + nnn) / 4096 = 10 := by omega
    rw [hd4]
  have hnn : op_nnn (0xA000 + nnn) = nnn := by
    rw [op_nnn_eq]
    omega
  have hd := decode_kind_ld rand _ hmask
  have hrun : emulate_cycle rand c =
      some (update_timers { c with opcode := 0xA000 + nnn,
                                   i_addr := op_nnn (0xA000 + nnn),
                                   pc := c.pc + 2 + 2 }) := by
    rw [emulate_cycle_eq rand c _ hf, hd]
    rfl
  refine ⟨_, hrun, ?_, ?_⟩
  · rw [update_timers_i_addr]
    dsimp only
    rw [hnn]
  · rw [update_timers_pc]

/-- C5 witness: `opcode_ld_cycle_spec` on the word 0xA123 at pc 0x200. -/
theorem opcode_ld_cycle_witness :
    ∃ c', emulate_cycle 0 ldW = some c' ∧ c'.i_addr = 0x123 ∧
      c'.pc = ldW.pc + 4 :=
  opcode_ld_cycle_spec 0 ldW 0x123 (by decide) (by decide) (by decide)
    (by decide)

/-- C7: over one full step, every skip opcode advances the program counter
by exactly 4 when its condition holds and by exactly 2 when it does not.
The six parts cover 0x3xkk (Vx = kk), 0x4xkk (Vx ≠ kk), 0x5xy0 (Vx = Vy),
0x9xy0 (Vx ≠ Vy), 0xEx9E (key x pressed) and 0xExA1 (key x not
pressed). -/
theorem skip_advance_spec :
    (∀ rand (c : Chip8) w, w &&& 0xF000 = 0x3000 → c.pc + 1 < MEMORY_SIZE →
      c.memory c.pc = w / 256 → c.memory (c.pc + 1) = w % 256 →
      ∃ c', emulate_cycle rand c = some c' ∧
        c'.pc = c.pc + (if c.v_reg (op_x w) = op_kk w then 4 else 2)) ∧
    (∀ rand (c : Chip8) w, w &&& 0xF000 = 0x4000 → c.pc + 1 < MEMORY_SIZE →
      c.memory c.pc = w / 256 → c.memory (c.pc + 1) = w % 256 →
      ∃ c', emulate_cycle rand c = some c' ∧
        c'.pc = c.pc + (if c.v_reg (op_x w) ≠ op_kk w then 4 else 2)) ∧
    (∀ rand (c : Chip8) w, w &&& 0xF00F = 0x5000 → c.pc + 1 < MEMORY_SIZE →
      c.memory c.pc = w / 256 → c.memory (c.pc + 1) = w % 256 →
      ∃ c', emulate_cycle rand c = some c' ∧
        c'.pc = c.pc + (if c.v_reg (op_x w) = c.v_reg (op_y w) then 4 else 2)) ∧
    (∀ rand (c : Chip8) w, w &&& 0xF00F = 0x9000 → c.pc + 1 < MEMORY_SIZE →
      c.memory c.pc = w / 256 → c.memory (c.pc + 1) = w % 256 →
      ∃ c', emulate_cycle rand c = some c' ∧
        c'.pc = c.pc + (if c.v_reg (op_x w) ≠ c.v_reg (op_y w) then 4 else 2)) ∧
    (∀ rand (c : Chip8) w, w &&& 0xF0FF = 0xE09E → c.pc + 1 < MEMORY_SIZE →
      c.memory c.pc = w / 256 → c.memory (c.pc + 1) = w % 256 →
      ∃ c', emulate_cycle rand c = some c' ∧
        c'.pc = c.pc + (if c.keypad (op_x w) = 1 then 4 else 2)) ∧
    (∀ rand (c : Chip8) w, w &&& 0xF0FF = 0xE0A1 → c.pc + 1 < MEMORY_SIZE →
      c.memory c.pc = w / 256 → c.memory (c.pc + 1) = w % 256 →
      ∃ c', emulate_cycle rand c = some c' ∧
        c'.pc = c.pc + (if c.keypad (op_x w) = 0 then 4 else 2)) := by
  refine ⟨?_, ?_, ?_, ?_, ?_, ?_⟩
  · intro rand c w hm hpc hb1 hb2
    have hf := fetch_opcode_eq c w hpc hb1 hb2
    have hmask : ({ c with opcode := w } : Chip8).opcode &&& 0xF000 = 0x3000 := hm
    have hd := decode_kind_se_byte rand _ hmask
    by_cases hcond : c.v_reg (op_x w) = op_kk w
    · have hh : opcode_se_byte ({ c with opcode := w } : Chip8) =
          { c with opcode := w, pc := c.pc + 2 } := by
        unfold opcode_se_byte
        dsimp only
        rw [if_pos hcond]
      have hrun : emulate_cycle rand c =
          some (update_timers { c with opcode := w, pc := c.pc + 2 + 2 }) := by
        rw [emulate_cycle_eq rand c _ hf, hd, hh]
      refine ⟨_, hrun, ?_⟩
      rw [update_timers_pc]
      dsimp only
      rw [if_pos hcond]
    · have hh : opcode_se_byte ({ c with opcode := w } : Chip8) =
          { c with opcode := w } := by
        unfold opcode_se_byte
        dsimp only
        rw [if_neg hcond]
      have hrun : emulate_cycle rand c =
          some (update_timers { c with opcode := w, pc := c.pc + 2 }) := by
        rw [emulate_cycle_eq rand c _ hf, hd, hh]
      refine ⟨_, hrun, ?_⟩
      rw [update_timers_pc]
      dsimp only
      rw [if_neg hcond]
  · intro rand c w hm hpc hb1 hb2
    have hf := fetch_opcode_eq c w hpc hb1 hb2
    have hmask : ({ c with opcode := w } : Chip8).opcode &&& 0xF000 = 0x4000 := hm
    have hd := decode_kind_sne_byte rand _ hmask
    by_cases hcond : c.v_reg (op_x w) = op_kk w
    · have hh : opcode_sne_byte ({ c with opcode := w } : Chip8) =
          { c with opcode := w } := by
        unfold opcode_sne_byte
        dsimp only
        rw [if_neg (by simpa using hcond)]
      have hrun : emulate_cycle rand c =
          some (update_timers { c with opcode := w, pc := c.pc + 2 }) := by
        rw [emulate_cycle_eq rand c _ hf, hd, hh]
      refine ⟨_, hrun, ?_⟩
      rw [update_timers_pc]
      dsimp only
      rw [if_neg (by simpa using hcond)]
    · have hh : opcode_sne_byte ({ c with opcode := w } : Chip8) =
          { c with opcode := w, pc := c.pc + 2 } := by
        unfold opcode_sne_byte
        dsimp only
        rw [if_pos hcond]
      have hrun : emulate_cycle rand c =
          some (update_timers { c with opcode := w, pc := c.pc + 2 + 2 }) := by
        rw [emulate_cycle_eq rand c _ hf, hd, hh]
      refine ⟨_, hrun, ?_⟩
      rw [update_timers_pc]
      dsimp only
      rw [if_pos hcond]
  · intro rand c w hm hpc hb1 hb2
    have hf := fetch_opcode_eq c w hpc hb1 hb2
    have hmask : ({ c with opcode := w } : Chip8).opcode &&& 0xF000 = 0x5000 := by
      show w &&& 0xF000 = 0x5000
      rw [and_F000_of_and_F00F hm]
      decide
    have hd := decode_kind_se_vx rand _ hmask
    by_cases hcond : c.v_reg (op_x w) = c.v_reg (op_y w)
    · have hh : opcode_se_vx ({ c with opcode := w } : Chip8) =
          { c with opcode := w, pc := c.pc + 2 } := by
        unfold opcode_se_vx
        dsimp only
        rw [if_pos hcond]
      have hrun : emulate_cycle rand c =
          some (update_timers { c with opcode := w, pc := c.pc + 2 + 2 }) := by
        rw [emulate_cycle_eq rand c _ hf, hd, hh]
      refine ⟨_, hrun, ?_⟩
      rw [update_timers_pc]
      dsimp only
      rw [if_pos hcond]
    · have hh : opcode_se_vx ({ c with opcode := w } : Chip8) =
          { c with opcode := w } := by
        unfold opcode_se_vx
        dsimp only
        rw [if_neg hcond]
      have hrun : emulate_cycle rand c =
          some (update_timers { c with opcode := w, pc := c.pc + 2 }) := by
        rw [emulate_cycle_eq rand c _ hf, hd, hh]
      refine ⟨_, hrun, ?_⟩
      rw [update_timers_pc]
      dsimp only
      rw [if_neg hcond]
  · intro rand c w hm hpc hb1 hb2
    have hf := fetch_opcode_eq c w hpc hb1 hb2
    have hmask : ({ c with opcode := w } : Chip8).opcode &&& 0xF000 = 0x9000 := by
      show w &&& 0xF000 = 0x9000
      rw [and_F000_of_and_F00F hm]
      decide
    have hd := decode_kind_sne rand _ hmask
    by_cases hcond : c.v_reg (op_x w) = c.v_reg (op_y w)
    · have hh : opcode_sne ({ c with opcode := w } : Chip8) =
          { c with opcode := w } := by
        unfold opcode_sne
        dsimp only
        rw [if_neg (by simpa using hcond)]
      have hrun : emulate_cycle rand c =
          some (update_timers { c with opcode := w, pc := c.pc + 2 }) := by
        rw [emulate_cycle_eq rand c _ hf, hd, hh]
      refine ⟨_, hrun, ?_⟩
      rw [update_timers_pc]
      dsimp only
      rw [if_neg (by simpa using hcond)]
    · have hh : opcode_sne ({ c with opcode := w } : Chip8) =
          { c with opcode := w, pc := c.pc + 2 } := by
        unfold opcode_sne
        dsimp only
        rw [if_pos hcond]
      have hrun : emulate_cycle rand c =
          some (update_timers { c with opcode := w, pc := c.pc + 2 + 2 }) := by
        rw [emulate_cycle_eq rand c _ hf, hd, hh]
      refine ⟨_, hrun, ?_⟩
      rw [update_timers_pc]
      dsimp only
      rw [if_pos hcond]
  · intro rand c w hm hpc hb1 hb2
    have hf := fetch_opcode_eq c w hpc hb1 hb2
    have hmask : ({ c with opcode := w } : Chip8).opcode &&& 0xF0FF = 0xE09E := hm
    have hd := decode_kind_skp rand _ hmask
    by_cases hcond : c.keypad (op_x w) = 1
    · have hh : opcode_skp ({ c with opcode := w } : Chip8) =
          { c with opcode := w, pc := c.pc + 2 } := by
        unfold opcode_skp
        dsimp only
        rw [if_pos hcond]
      have hrun : emulate_cycle rand c =
          some (update_timers { c with opcode := w, pc := c.pc + 2 + 2 }) := by
        rw [emulate_cycle_eq rand c _ hf, hd, hh]
      refine ⟨_, hrun, ?_⟩
      rw [update_timers_pc]
      dsimp only
      rw [if_pos hcond]
    · have hh : opcode_skp ({ c with opcode := w } : Chip8) =
          { c with opcode := w } := by
        unfold opcode_skp
        dsimp only
        rw [if_neg hcond]
      have hrun : emulate_cycle rand c =
          some (update_timers { c with opcode := w, pc := c.pc + 2 }) := by
        rw [emulate_cycle_eq rand c _ hf, hd, hh]
      refine ⟨_, hrun, ?_⟩
      rw [update_timers_pc]
      dsimp only
      rw [if_neg hcond]
  · intro rand c w hm hpc hb1 hb2
    have hf := fetch_opcode_eq c w hpc hb1 hb2
    have hmask : ({ c with opcode := w } : Chip8).opcode &&& 0xF0FF = 0xE0A1 := hm
    have hd := decode_kind_sknp rand _ hmask
    by_cases hcond : c.keypad (op_x w) = 0
    · have hh : opcode_sknp ({ c with opcode := w } : Chip8) =
          { c with opcode := w, pc := c.pc + 2 } := by
        unfold opcode_sknp
        dsimp only
        rw [if_pos hcond]
      have hrun : emulate_cycle rand c =
          some (update_timers { c with opcode := w, pc := c.pc + 2 + 2 }) := by
        rw [emulate_cycle_eq rand c _ hf, hd, hh]
      refine ⟨_, hrun, ?_⟩
      rw [update_timers_pc]
      dsimp only
      rw [if_pos hcond]
    · have hh : opcode_sknp ({ c with opcode := w } : Chip8) =
          { c with opcode := w } := by
        unfold opcode_sknp
        dsimp only
        rw [if_neg hcond]
      have hrun : emulate_cycle rand c =
          some (update_timers { c with opcode := w, pc := c.pc + 2 }) := by
        rw [emulate_cycle_eq rand c _ hf, hd, hh]
      refine ⟨_, hrun, ?_⟩
      rw [update_timers_pc]
      dsimp only
      rw [if_neg hcond]

/-- C7 witness: `skip_advance_spec` for opcode 0x3xkk with the condition
true (word 0x3000, `V[0] = 0 = kk`, advance 4) and false (word 0x3007,
`V[0] = 0 ≠ 7`, advance 2). -/
theorem skip_advance_witness :
    (∃ c', emulate_cycle 0 skW = some c' ∧
      c'.pc = skW.pc +
        (if skW.v_reg (op_x 0x3000) = op_kk 0x3000 then 4 else 2)) ∧
    (∃ c', emulate_cycle 0 skW2 = some c' ∧
      c'.pc = skW2.pc +
        (if skW2.v_reg (op_x 0x3007) = op_kk 0x3007 then 4 else 2)) :=
  ⟨skip_advance_spec.1 0 skW 0x3000 (by decide) (by decide) (by decide)
    (by decide),
   skip_advance_spec.1 0 skW2 0x3007 (by decide) (by decide) (by decide)
    (by decide)⟩

/-- C8: an instruction word that matches no row of the dispatch table
makes the dispatcher fault, and the whole step faults with it: no
post-fetch state is produced, so no state mutation beyond the fetch
happens. -/
theorem unknown_opcode_spec (rand : Nat) (c : Chip8) (w : Nat)
    (hpc : c.pc + 1 < MEMORY_SIZE)
    (hb1 : c.memory c.pc = w / 256) (hb2 : c.memory (c.pc + 1) = w % 256)
    (hunk : ¬ isKnownOpcode w) :
    decode_opcode rand { c with opcode := w } = none ∧
    emulate_cycle rand c = none := by
  have hdec : decode_opcode rand { c with opcode := w } = none := by
    have hop : ({ c with opcode := w } : Chip8).opcode = w := rfl
    unfold decode_opcode
    rw [hop]
    obtain ⟨k, hklt, hk⟩ : ∃ k, k < 16 ∧ w &&& 0xF000 = k * 4096 :=
      ⟨w / 4096 % 16, Nat.mod_lt _ (by norm_num), and_F000_eq w⟩
    interval_cases k <;> norm_num at hk
    · by_cases hE0 : w &&& 0x00FF = 0x00E0
      · exact absurd (by unfold isKnownOpcode; simp [hk, hE0]) hunk
      · by_cases hEE : w &&& 0x00FF = 0x00EE
        · exact absurd (by unfold isKnownOpcode; simp [hk, hEE]) hunk
        · rw [hk]
          norm_num
          rw [if_neg hE0, if_neg hEE]
    · exact absurd (by unfold isKnownOpcode; simp [hk]) hunk
    · exact absurd (by unfold isKnownOpcode; simp [hk]) hunk
    · exact absurd (by unfold isKnownOpcode; simp [hk]) hunk
    · exact absurd (by unfold isKnownOpcode; simp [hk]) hunk
    · exact absurd (by unfold isKnownOpcode; simp [hk]) hunk
    · exact absurd (by unfold isKnownOpcode; simp [hk]) hunk
    · exact absurd (by unfold isKnownOpcode; simp [hk]) hunk
    · by_cases n0 : w &&& 0x000F = 0x0000
      · exact absurd (by unfold isKnownOpcode; simp [hk, n0]) hunk
      · by_cases n1 : w &&& 0x000F = 0x0001
        · exact absurd (by unfold isKnownOpcode; simp [hk, n1]) hunk
        · by_cases n2 : w &&& 0x000F = 0x0002
          · exact absurd (by unfold isKnownOpcode; simp [hk, n2]) hunk
          · by_cases n3 : w &&& 0x000F = 0x0003
            · exact absurd (by unfold isKnownOpcode; simp [hk, n3]) hunk
            · by_cases n4 : w &&& 0x000F = 0x0004
              · exact absurd (by unfold isKnownOpcode; simp [hk, n4]) hunk
              · by_cases n5 : w &&& 0x000F = 0x0005
                · exact absurd (by unfold isKnownOpcode; simp [hk, n5]) hunk
                · by_cases n6 : w &&& 0x000F = 0x0006
                  · exact absurd (by unfold isKnownOpcode; simp [hk, n6]) hunk
                  · by_cases n7 : w &&& 0x000F = 0x0007
                    · exact absurd (by unfold isKnownOpcode; simp [hk, n7]) hunk
                    · by_cases nE : w &&& 0x000F = 0x000E
                      · exact absurd
                          (by unfold isKnownOpcode; simp [hk, nE]) hunk
                      · rw [hk]
                        norm_num
                        rw [if_neg n0, if_neg n1, if_neg n2, if_neg n3,
                          if_neg n4, if_neg n5, if_neg n6, if_neg n7,
                          if_neg nE]
    · exact absurd (by unfold isKnownOpcode; simp [hk]) hunk
    · exact absurd (by unfold isKnownOpcode; simp [hk]) hunk
    · exact absurd (by unfold isKnownOpcode; simp [hk]) hunk
    · exact absurd (by unfold isKnownOpcode; simp [hk]) hunk
    · exact absurd (by unfold isKnownOpcode; simp [hk]) hunk
    · by_cases m9E : w &&& 0xF0FF = 0xE09E
      · exact absurd (by unfold isKnownOpcode; simp [hk, m9E]) hunk
      · by_cases mA1 : w &&& 0xF0FF = 0xE0A1
        · exact absurd (by unfold isKnownOpcode; simp [hk, mA1]) hunk
        · rw [hk]
          norm_num
          rw [if_neg m9E, if_neg mA1]
    · by_cases f07 : w &&& 0xF0FF = 0xF007
      · exact absurd (by unfold isKnownOpcode; simp [hk, f07]) hunk
      · by_cases f0A : w &&& 0xF0FF = 0xF00A
        · exact absurd (by unfold isKnownOpcode; simp [hk, f0A]) hunk
        · by_cases f15 : w &&& 0xF0FF = 0xF015
          · exact absurd (by unfold isKnownOpcode; simp [hk, f15]) hunk
          · by_cases f18 : w &&& 0xF0FF = 0xF018
            · exact absurd (by unfold isKnownOpcode; simp [hk, f18]) hunk
            · by_cases f1E : w &&& 0xF0FF = 0xF01E
              · exact absurd (by unfold isKnownOpcode; simp [hk, f1E]) hunk
              · by_cases f29 : w &&& 0xF0FF = 0xF029
                · exact absurd (by unfold isKnownOpcode; simp [hk, f29]) hunk
                · by_cases f33 : w &&& 0xF0FF = 0xF033
                  · exact absurd
                      (by unfold isKnownOpcode; simp [hk, f33]) hunk
                  · by_cases f55 : w &&& 0xF0FF = 0xF055
                    · exact absurd
                        (by unfold isKnownOpcode; simp [hk, f55]) hunk
                    · by_cases f65 : w &&& 0xF0FF = 0xF065
                      · exact absurd
                          (by unfold isKnownOpcode; simp [hk, f65]) hunk
                      · rw [hk]
                        norm_num
                        rw [if_neg f07, if_neg f0A, if_neg f15, if_neg f18,
                          if_neg f1E, if_neg f29, if_neg f33, if_neg f55,
                          if_neg f65]
  have hf := fetch_opcode_eq c w hpc hb1 hb2
  refine ⟨hdec, ?_⟩
  rw [emulate_cycle_eq rand c _ hf, hdec]

/-- C8 witness: `unknown_opcode_spec` on the word 0x0001 (high nibble 0x0
with an unrecognized low byte) at pc 0x200. -/
theorem unknown_opcode_witness :
    decode_opcode 0 { unkM with opcode := 0x0001 } = none ∧
    emulate_cycle 0 unkM = none :=
  unknown_opcode_spec 0 unkM 0x0001 (by decide) (by decide) (by decide)
    (by unfold isKnownOpcode; decide)

/-- The code's sprite-bit mask `sprite_row & (0x80 >> pixel_number)`
extracts the bits of the row most-significant first. -/
theorem sprite_bit_eq (sr p : Nat) (hp : p < 8) :
    (if sr &&& (0x80 >>> p) = 0 then (0:Nat) else 1) = sr / 2 ^ (7 - p) % 2 := by
  have hmask : (0x80 : Nat) >>> p = 2 ^ (7 - p) := by
    rw [Nat.shiftRight_eq_div_pow]
    show 2 ^ 7 / 2 ^ p = 2 ^ (7 - p)
    rw [Nat.pow_div (by omega) (by norm_num)]
  have h1 : ((2:Nat) ^ 1 - 1) <<< (7 - p) = 2 ^ (7 - p) := by
    rw [Nat.shiftLeft_eq]
    norm_num
  have hwin := and_mask_window sr (7 - p) 1
  rw [h1] at hwin
  norm_num at hwin
  rw [hmask, hwin]
  rcases Nat.mod_two_eq_zero_or_one (sr / 2 ^ (7 - p)) with h | h <;> rw [h]
  · simp
  · rw [one_mul, if_neg (by positivity)]

/-- One XOR pixel write: the written pixel becomes the XOR of the old
pixel with the sprite bit, every other pixel is untouched, and no field
other than the display changes. `cc` is the state being written (its
display agrees with the reference state `c0`). -/
theorem xor_pixel_step (cc c0 : Chip8) (t pt sb : Nat)
    (hdisp : cc.display = c0.display)
    (hgt : get_pixel c0 t = some pt)
    (hsb01 : sb = 0 ∨ sb = 1)
    (h3t : t * 3 + 2 < DISPLAY_SIZE) :
    ∃ c', xor_pixel cc t sb = some c' ∧
      c'.v_reg = cc.v_reg ∧
      get_pixel c' t = some ((pt + sb) % 2) ∧
      (∀ j, j ≠ t → get_pixel c' j = get_pixel c0 j) ∧
      c'.memory = cc.memory ∧ c'.pc = cc.pc ∧ c'.i_addr = cc.i_addr ∧
      c'.sp = cc.sp ∧ c'.stack = cc.stack := by
  have htS : t * 3 < DISPLAY_SIZE := by omega
  have hpt01 : pt = 1 ∨ pt = 0 := by
    rcases (get_pixel_some c0 t pt hgt).2 with ⟨h, _⟩ | ⟨h, _⟩
    · exact Or.inl h
    · exact Or.inr h
  have hgt' : get_pixel cc t = some pt := by
    rw [get_pixel_congr c0 cc t (by rw [hdisp])]
    exact hgt
  unfold xor_pixel
  rw [hgt']
  dsimp only
  by_cases hmatch : pt = sb
  · rw [if_pos hmatch, set_pixel_some cc t 0 (Or.inl rfl) h3t]
    refine ⟨_, rfl, rfl, ?_, ?_, rfl, rfl, rfl, rfl, rfl⟩
    · unfold get_pixel
      dsimp only
      rw [if_pos htS, upd_other _ _ _ _ (by omega), upd_other _ _ _ _ (by omega),
        upd_same]
      norm_num
      omega
    · intro j hj
      refine get_pixel_congr c0 _ j ?_
      dsimp only
      rw [upd_other _ _ _ _ (by omega), upd_other _ _ _ _ (by omega),
        upd_other _ _ _ _ (by omega)]
      rw [hdisp]
  · rw [if_neg hmatch, set_pixel_some cc t 1 (Or.inr rfl) h3t]
    refine ⟨_, rfl, rfl, ?_, ?_, rfl, rfl, rfl, rfl, rfl⟩
    · unfold get_pixel
      dsimp only
      rw [if_pos htS, upd_other _ _ _ _ (by omega), upd_other _ _ _ _ (by omega),
        upd_same]
      norm_num
      omega
    · intro j hj
      refine get_pixel_congr c0 _ j ?_
      dsimp only
      rw [upd_other _ _ _ _ (by omega), upd_other _ _ _ _ (by omega),
        upd_other _ _ _ _ (by omega)]
      rw [hdisp]

/-- C1 (amended): the draw opcode clears VF before drawing (first
conjunct: a zero-height draw leaves exactly the VF-cleared state); each
sprite-bit step (second conjunct) reads the sprite bits
most-significant first, checks the collision at the unwrapped index
`start + r*width + p` and sets VF to 1 whenever that pixel is on —
regardless of the sprite bit's value — then wraps the index back by one
row width when `(start mod width) + p ≥ width` and XORs the sprite bit
into the pixel at the wrapped index (0-bits leave the pixel unchanged
under XOR); nothing else changes. -/
theorem drw_collision_spec :
    (∀ c : Chip8, op_n c.opcode = 0 →
      opcode_drw c = some { c with v_reg := upd c.v_reg 0xF 0 }) ∧
    (∀ (c : Chip8) (start r p sr pu pt u t : Nat), p < 8 →
      u = start + r * DISPLAY_WIDTH + p →
      t = (if DISPLAY_WIDTH ≤ start % DISPLAY_WIDTH + p then u - DISPLAY_WIDTH
           else u) →
      get_pixel c u = some pu →
      get_pixel c t = some pt →
      ∃ c', drw_pixel start r sr p c = some c' ∧
        c'.v_reg = (if pu = 1 then upd c.v_reg 0xF 1 else c.v_reg) ∧
        get_pixel c' t = some ((pt + sr / 2 ^ (7 - p) % 2) % 2) ∧
        (∀ j, j ≠ t → get_pixel c' j = get_pixel c j) ∧
        c'.memory = c.memory ∧ c'.pc = c.pc ∧ c'.i_addr = c.i_addr ∧
        c'.sp = c.sp ∧ c'.stack = c.stack) := by
  constructor
  · intro c h
    unfold opcode_drw
    dsimp only
    rw [h]
    rfl
  · intro c start r p sr pu pt u t hp hu ht hgu hgt
    have htS : t * 3 < DISPLAY_SIZE := (get_pixel_some c t pt hgt).1
    have h3t : t * 3 + 2 < DISPLAY_SIZE := by
      rw [DISPLAY_SIZE_eq] at htS ⊢
      omega
    have hsb := sprite_bit_eq sr p hp
    subst hu
    by_cases hpu : pu = 1
    · obtain ⟨c', hx, hv, hgt', hothers, hm, hpc', hi', hsp', hstk'⟩ :=
        xor_pixel_step { c with v_reg := upd c.v_reg 0xF 1 } c t pt
          (sr / 2 ^ (7 - p) % 2) rfl hgt (Nat.mod_two_eq_zero_or_one _) h3t
      refine ⟨c', ?_, ?_, hgt', hothers, hm, hpc', hi', hsp', hstk'⟩
      · unfold drw_pixel
        dsimp only
        rw [hgu]
        dsimp only
        rw [← ht, hsb, if_pos hpu]
        exact hx
      · rw [hv, if_pos hpu]
    · obtain ⟨c', hx, hv, hgt', hothers, hm, hpc', hi', hsp', hstk'⟩ :=
        xor_pixel_step c c t pt
          (sr / 2 ^ (7 - p) % 2) rfl hgt (Nat.mod_two_eq_zero_or_one _) h3t
      refine ⟨c', ?_, ?_, hgt', hothers, hm, hpc', hi', hsp', hstk'⟩
      · unfold drw_pixel
        dsimp only
        rw [hgu]
        dsimp only
        rw [← ht, hsb, if_neg hpu]
        exact hx
      · rw [hv, if_neg hpu]

/-- C1 counterexample: drawing the all-zero sprite row (no sprite bit is
1) over a screen whose pixel 0 is on sets VF = 1, though the claim
requires VF = 1 exactly when a 1 sprite bit targets an on pixel. -/
theorem drw_collision_counterexample :
    drwM.memory drwM.i_addr = 0 ∧
    get_pixel drwM 0 = some 1 ∧
    (opcode_drw drwM).map (fun s => s.v_reg 0xF) = some 1 := by
  decide

/-- C1 witness: `drw_collision_spec` part one on a zero-height draw and
part two on the sprite byte 0x80, bit 0, over the on pixel 0. -/
theorem drw_collision_witness :
    opcode_drw drwW0 = some { drwW0 with v_reg := upd drwW0.v_reg 0xF 0 } ∧
    (∃ c', drw_pixel 0 0 0x80 0 drwM = some c' ∧
      c'.v_reg = (if (1:Nat) = 1 then upd drwM.v_reg 0xF 1 else drwM.v_reg) ∧
      get_pixel c' 0 = some ((1 + 0x80 / 2 ^ (7 - 0) % 2) % 2) ∧
      (∀ j, j ≠ 0 → get_pixel c' j = get_pixel drwM j) ∧
      c'.memory = drwM.memory ∧ c'.pc = drwM.pc ∧ c'.i_addr = drwM.i_addr ∧
      c'.sp = drwM.sp ∧ c'.stack = drwM.stack) :=
  ⟨drw_collision_spec.1 drwW0 (by decide),
   drw_collision_spec.2 drwM 0 0 0 0x80 1 1 0 0 (by decide) (by decide)
     (by decide) (by decide) (by decide)⟩
